import Mathlib

/-!
Shallow embedding of the concurrency toolkit in `common/concurrency.go`
(package `common` of the my-go-sdk repository) and proofs about it.

Modelling conventions:
* A Go `error` is `Option GoErr` (`none` = nil error); `GoErr` is the error
  message string.
* A Go `interface{}` value is `Option V` (`none` = a nil interface value);
  the embedding is polymorphic in the payload type `V`.
* A Go function body that may panic is modelled with `Exec α`: either a
  normal return or a propagating panic carrying the `%v`-rendered panic
  value.  `Exec.panicked` is absorbed exactly where the source installs a
  `recover()` boundary and propagates everywhere else, mirroring Go's
  semantics (an unrecovered panic in a goroutine terminates the process).
* A `Task` (`func() (interface{}, error)`) is opaque and invoked exactly
  once, so it is modelled by the outcome of that single invocation.
* Real-time and scheduling nondeterminism (racy `ctx.Done()` observations,
  `select` branch choices, timer firings) are passed in as explicit oracle
  parameters, so theorems quantify over every schedule.
-/

namespace Common

/-- Rendered message of a Go `error` value; a Go error is `Option GoErr`. -/
abbrev GoErr := String

/-- Outcome of running a Go code fragment: a normal return, or a panic that
is propagating (not yet recovered). -/
inductive Exec (α : Type) where
  | ret : α → Exec α
  | panicked : String → Exec α
deriving DecidableEq, Repr

/-- A `Task` is `func() (interface{}, error)`; since the toolkit invokes each
task exactly once, a task is modelled by the outcome of that invocation:
either a returned `(value, error)` pair or a panic. -/
abbrev Task (V : Type) := Exec (Option V × Option GoErr)

/-- `TaskResult` from concurrency.go: `{Value interface{}; Error error; Index int}`. -/
structure TaskResult (V : Type) where
  value : Option V
  error : Option GoErr
  index : Nat
deriving DecidableEq, Repr

/-- Error text produced by a context whose deadline elapsed or that was
cancelled; the toolkit only ever checks this error for non-nilness. -/
def ctxDoneMsg : GoErr := "context deadline exceeded"

/-- The error message `fmt.Errorf("任务执行时发生panic: %v", r)` built by the
recover boundary in `Parallelizer.RunWithContext`. -/
def taskPanicMsg (r : String) : GoErr := "任务执行时发生panic: " ++ r

/-- `Parallelizer` from concurrency.go: `MaxGoroutines int; Timeout time.Duration`.
`Timeout` is in nanoseconds (`time.Duration` is an `int64` nanosecond count).
`MaxGoroutines` sizes the admission semaphore; it bounds how many tasks run
at once but does not influence any task's recorded result, so it is carried
but unused by the result semantics. -/
structure Parallelizer where
  MaxGoroutines : Int
  Timeout : Int
deriving DecidableEq, Repr

/-- The body of the per-task goroutine in `Parallelizer.RunWithContext`,
deciding the `TaskResult` written to `results[index]`:
if the racy `ctx.Done()` check observes a done context (`done = true`) the
task body is never invoked and the context error is recorded; otherwise the
task runs inside a `recover()` boundary that converts a panic into a
`taskPanicMsg` error with a nil value.  The boundary is why this function is
total: no panic escapes to siblings or the caller. -/
def runUnit {V : Type} (done : Bool) (t : Task V) (index : Nat) : TaskResult V :=
  if done then
    { value := none, error := some ctxDoneMsg, index := index }
  else
    match t with
    | .ret (v, e) => { value := v, error := e, index := index }
    | .panicked r => { value := none, error := some (taskPanicMsg r), index := index }

/-- The loop of `RunWithContext`: each task `i` is launched in its own
goroutine which writes exactly `results[i]`; since distinct goroutines write
distinct slots and `wg.Wait()` orders all writes before the return, the final
array is the per-index list of `runUnit` outcomes, independent of completion
order.  `start` is the index of the first task in `ts`. -/
def runFrom {V : Type} (doneAt : Nat → Bool) : Nat → List (Task V) → List (TaskResult V)
  | _, [] => []
  | i, t :: ts => runUnit (doneAt i) t i :: runFrom doneAt (i + 1) ts

/-- `Parallelizer.RunWithContext`: run the tasks under an ambient context.
`doneAt i` is the schedule oracle: whether task `i`'s goroutine observed the
combined context (caller context plus the timeout context derived from
`p.Timeout`) as already done at its admission check. -/
def Parallelizer.RunWithContext {V : Type} (_p : Parallelizer) (doneAt : Nat → Bool)
    (tasks : List (Task V)) : List (TaskResult V) :=
  runFrom doneAt 0 tasks

/-- Admission-check oracle seen by a `Run` call, which passes
`context.Background()`: the background context is never cancelled, so when
`p.Timeout ≤ 0` the combined context (`context.WithCancel`, cancelled only
after `wg.Wait()`) can never be observed done; when `p.Timeout > 0` the
timeout context may fire at any moment, so any oracle is realizable. -/
def Parallelizer.doneOracle (p : Parallelizer) (doneAt : Nat → Bool) : Nat → Bool :=
  fun i => if 0 < p.Timeout then doneAt i else false

/-- `Parallelizer.Run`: `RunWithContext` on `context.Background()`. -/
def Parallelizer.Run {V : Type} (p : Parallelizer) (doneAt : Nat → Bool)
    (tasks : List (Task V)) : List (TaskResult V) :=
  p.RunWithContext (p.doneOracle doneAt) tasks

/-- `NewParallelizer(maxGoroutines, timeout)`. -/
def NewParallelizer (maxGoroutines : Int) (timeout : Int) : Parallelizer :=
  { MaxGoroutines := maxGoroutines, Timeout := timeout }

/-- `RunTasksWithTimeout(timeout, tasks...)` from concurrency.go. -/
def RunTasksWithTimeout {V : Type} (timeout : Int) (doneAt : Nat → Bool)
    (tasks : List (Task V)) : List (TaskResult V) :=
  (NewParallelizer tasks.length timeout).Run doneAt tasks

/-- `RunTasksConcurrently(maxGoroutines, tasks...)` from concurrency.go. -/
def RunTasksConcurrently {V : Type} (maxGoroutines : Int) (doneAt : Nat → Bool)
    (tasks : List (Task V)) : List (TaskResult V) :=
  (NewParallelizer maxGoroutines 0).Run doneAt tasks

/-- `SafeMap`: a mutex-guarded `map[string]interface{}`.  The mutex is
irrelevant in this sequential embedding; the map itself is an association
list with unique keys, whose stored values are Go interface values
(`Option V`, where `none` is a stored nil). -/
structure SafeMap (V : Type) where
  data : List (String × Option V)
deriving DecidableEq, Repr

/-- `NewSafeMap()`: an empty map. -/
def NewSafeMap (V : Type) : SafeMap V := ⟨[]⟩

/-- `SafeMap.Set`: insert or overwrite a key. -/
def SafeMap.Set {V : Type} (m : SafeMap V) (key : String) (value : Option V) : SafeMap V :=
  ⟨(key, value) :: m.data.filter (fun kv => kv.1 ≠ key)⟩

/-- `SafeMap.Get`: `return m.data[key]` — Go map indexing yields the value
type's zero value (a nil interface) when the key is absent. -/
def SafeMap.Get {V : Type} (m : SafeMap V) (key : String) : Option V :=
  match m.data.lookup key with
  | some v => v
  | none => none

/-- `SafeMap.GetWithDefault`: the comma-ok lookup — the stored value when the
key is present (even a stored nil), the default otherwise. -/
def SafeMap.GetWithDefault {V : Type} (m : SafeMap V) (key : String)
    (defaultValue : Option V) : Option V :=
  match m.data.lookup key with
  | some v => v
  | none => defaultValue

/-- `SafeMap.Has`: the comma-ok presence test. -/
def SafeMap.Has {V : Type} (m : SafeMap V) (key : String) : Bool :=
  (m.data.lookup key).isSome

/-- `Semaphore` from concurrency.go: `sem chan struct{}` of capacity `size`.
`outstanding` is `len(sem)`, the number of held slots; `capacity` is
`cap(sem)`. -/
structure Semaphore where
  capacity : Nat
  outstanding : Nat
deriving DecidableEq, Repr

/-- `NewSemaphore(size)`: a fresh channel is empty. -/
def NewSemaphore (size : Nat) : Semaphore :=
  { capacity := size, outstanding := 0 }

/-- `Semaphore.Acquire`: `s.sem <- struct{}{}`.  The send commits (one more
buffered element) only when a slot is free; on a full channel the caller
blocks, and a blocked sender changes no channel state — its commit is simply
a later event in the operation trace. -/
def Semaphore.Acquire (s : Semaphore) : Semaphore :=
  if s.outstanding < s.capacity then { s with outstanding := s.outstanding + 1 } else s

/-- `Semaphore.Release`: `<-s.sem`.  A receive commits only when an element
is buffered; a receive on an empty channel blocks and changes nothing. -/
def Semaphore.Release (s : Semaphore) : Semaphore :=
  if 0 < s.outstanding then { s with outstanding := s.outstanding - 1 } else s

/-- `Semaphore.TryAcquire`: non-blocking send via `select`/`default` — takes
a slot exactly when one is immediately free, else returns `false` leaving
the channel untouched. -/
def Semaphore.TryAcquire (s : Semaphore) : Bool × Semaphore :=
  if s.outstanding < s.capacity then (true, { s with outstanding := s.outstanding + 1 })
  else (false, s)

/-- `Semaphore.AcquireWithTimeout`: `select` between the send and a timer.
`timedOut` is the schedule oracle for whether the timer case committed; when
it did, no slot is consumed.  When neither case can commit yet (no free slot,
timer not fired) the caller is still blocked and no state changes. -/
def Semaphore.AcquireWithTimeout (s : Semaphore) (timedOut : Bool) : Bool × Semaphore :=
  if timedOut = false ∧ s.outstanding < s.capacity then
    (true, { s with outstanding := s.outstanding + 1 })
  else (false, s)

/-- `Semaphore.Available`: `cap(s.sem) - len(s.sem)`. -/
def Semaphore.Available (s : Semaphore) : Nat :=
  s.capacity - s.outstanding

/-- One committed semaphore operation of a trace. -/
inductive SemOp where
  | acquire
  | acquireWithTimeout (timedOut : Bool)
  | tryAcquire
  | release
deriving DecidableEq, Repr

/-- Effect of one committed operation on the channel state. -/
def Semaphore.step (s : Semaphore) : SemOp → Semaphore
  | .acquire => s.Acquire
  | .acquireWithTimeout timedOut => (s.AcquireWithTimeout timedOut).2
  | .tryAcquire => s.TryAcquire.2
  | .release => s.Release

/-- All states a semaphore of capacity `size` passes through along a trace
of committed operations, the initial state included. -/
def semStates (size : Nat) (ops : List SemOp) : List Semaphore :=
  ops.scanl Semaphore.step (NewSemaphore size)

theorem semaphore_step_bound (s : Semaphore) (op : SemOp)
    (h : s.outstanding ≤ s.capacity) :
    (s.step op).outstanding ≤ (s.step op).capacity ∧ (s.step op).capacity = s.capacity := by
  cases op with
  | acquire =>
      rw [Semaphore.step, Semaphore.Acquire]
      split <;> simp <;> omega
  | acquireWithTimeout timedOut =>
      rw [Semaphore.step, Semaphore.AcquireWithTimeout]
      split <;> simp <;> omega
  | tryAcquire =>
      rw [Semaphore.step, Semaphore.TryAcquire]
      split <;> simp <;> omega
  | release =>
      rw [Semaphore.step, Semaphore.Release]
      split <;> simp <;> omega

theorem semaphore_scanl_bound (s0 : Semaphore) (ops : List SemOp)
    (h0 : s0.outstanding ≤ s0.capacity) :
    ∀ s ∈ ops.scanl Semaphore.step s0,
      s.outstanding ≤ s.capacity ∧ s.capacity = s0.capacity := by
  induction ops generalizing s0 with
  | nil =>
      intro s hs
      rw [List.scanl] at hs
      simp at hs
      subst hs
      exact ⟨h0, rfl⟩
  | cons op ops ih =>
      intro s hs
      rw [List.scanl] at hs
      rcases List.mem_cons.mp hs with h | h
      · subst h
        exact ⟨h0, rfl⟩
      · have hb := semaphore_step_bound s0 op h0
        have := ih (s0.step op) hb.1 s h
        exact ⟨this.1, this.2.trans hb.2⟩

/-- C6: along every trace of committed Acquire / AcquireWithTimeout /
TryAcquire / Release operations, every state of a capacity-C semaphore keeps
`outstanding ≤ C` (the lower bound `0 ≤ outstanding` is inherent: a channel
never holds a negative number of elements, and a release that finds the
channel empty blocks rather than committing — which is also why the bound
needs no matched-release hypothesis: it holds for all traces, in particular
the matched ones the claim quantifies over); and `TryAcquire` on a full
semaphore returns `false` immediately with the state unchanged. -/
theorem semaphore_invariant (size : Nat) (ops : List SemOp) :
    (∀ s ∈ semStates size ops, s.outstanding ≤ s.capacity ∧ s.capacity = size) ∧
    (∀ s : Semaphore, s.outstanding = s.capacity → s.TryAcquire = (false, s)) := by
  constructor
  · exact semaphore_scanl_bound (NewSemaphore size) ops (Nat.zero_le _)
  · intro s h
    rw [Semaphore.TryAcquire, if_neg]
    omega

/-- Witness for C6 at a concrete trace: after `acquire, tryAcquire` on a
capacity-2 semaphore the reached state satisfies the bound, and `TryAcquire`
on the full state `⟨2, 2⟩` is a no-op returning `false`. -/
theorem semaphore_invariant_witness :
    ((NewSemaphore 2).step SemOp.acquire).step SemOp.tryAcquire ∈
        semStates 2 [SemOp.acquire, SemOp.tryAcquire] ∧
    (((NewSemaphore 2).step SemOp.acquire).step SemOp.tryAcquire).outstanding ≤
      (((NewSemaphore 2).step SemOp.acquire).step SemOp.tryAcquire).capacity ∧
    Semaphore.TryAcquire ⟨2, 2⟩ = (false, ⟨2, 2⟩) := by
  refine ⟨by decide, ?_, ?_⟩
  · exact ((semaphore_invariant 2 [SemOp.acquire, SemOp.tryAcquire]).1 _ (by decide)).1
  · exact (semaphore_invariant 2 []).2 ⟨2, 2⟩ rfl

/-- `RateLimiter` from concurrency.go: `interval` is the tick period in
nanoseconds (`time.Duration`); `tokens` is the number of tokens buffered in
the capacity-1 channel `tokens chan struct{}`.  The context/cancel pair only
stops the generator goroutine, which in a trace just means no further tick
events occur; it holds no further state. -/
structure RateLimiter where
  interval : Int
  tokens : Nat
deriving DecidableEq, Repr

/-- `NewRateLimiter(maxRequestsPerSecond)`:
`interval := time.Second / time.Duration(maxRequestsPerSecond)` — 64-bit
integer division (`time.Second` is 10^9 ns) truncating toward zero, which
panics on a zero divisor; the rate is not validated in any way.  The token
channel is created empty with capacity 1. -/
def NewRateLimiter (maxRequestsPerSecond : Int) : Exec RateLimiter :=
  if maxRequestsPerSecond = 0 then .panicked "runtime error: integer divide by zero"
  else .ret { interval := Int.tdiv 1000000000 maxRequestsPerSecond, tokens := 0 }

/-- One tick of `generateTokens`: a non-blocking send into the capacity-1
channel — the token is deposited if the buffer is empty, otherwise the tick
is dropped (`default:` case), never queued. -/
def RateLimiter.tick (r : RateLimiter) : RateLimiter :=
  if r.tokens < 1 then { r with tokens := r.tokens + 1 } else r

/-- `RateLimiter.Wait`: `<-r.tokens` — commits (consuming a token) only when
one is buffered; otherwise the caller blocks and no state changes. -/
def RateLimiter.Wait (r : RateLimiter) : RateLimiter :=
  if 0 < r.tokens then { r with tokens := r.tokens - 1 } else r

/-- `RateLimiter.TryWait`: non-blocking receive via `select`/`default`. -/
def RateLimiter.TryWait (r : RateLimiter) : Bool × RateLimiter :=
  if 0 < r.tokens then (true, { r with tokens := r.tokens - 1 }) else (false, r)

/-- One committed event in a rate-limiter trace: a generator tick, a
blocking `Wait` commit, or a `TryWait` call. -/
inductive RLOp where
  | tick
  | wait
  | tryWait
deriving DecidableEq, Repr

/-- Effect of one committed event on the token buffer. -/
def RateLimiter.step (r : RateLimiter) : RLOp → RateLimiter
  | .tick => r.tick
  | .wait => r.Wait
  | .tryWait => r.TryWait.2

/-- All states a rate limiter passes through along a trace of committed
events, the initial state included. -/
def rlStates (r : RateLimiter) (ops : List RLOp) : List RateLimiter :=
  ops.scanl RateLimiter.step r

theorem rl_step_bound (r : RateLimiter) (op : RLOp) (h : r.tokens ≤ 1) :
    (r.step op).tokens ≤ 1 := by
  cases op with
  | tick =>
      rw [RateLimiter.step, RateLimiter.tick]
      split <;> first | exact h | (simp; omega)
  | wait =>
      rw [RateLimiter.step, RateLimiter.Wait]
      split <;> first | exact h | (simp; omega)
  | tryWait =>
      rw [RateLimiter.step, RateLimiter.TryWait]
      split <;> first | exact h | (simp; omega)

theorem rl_scanl_bound (r0 : RateLimiter) (ops : List RLOp) (h0 : r0.tokens ≤ 1) :
    ∀ r ∈ ops.scanl RateLimiter.step r0, r.tokens ≤ 1 := by
  induction ops generalizing r0 with
  | nil =>
      intro r hr
      rw [List.scanl] at hr
      simp at hr
      exact hr ▸ h0
  | cons op ops ih =>
      intro r hr
      rw [List.scanl] at hr
      rcases List.mem_cons.mp hr with h | h
      · subst h
        exact h0
      · exact ih (r0.step op) (rl_step_bound r0 op h0) r h

/-- C8: a constructed rate limiter starts with an empty token buffer, so
`TryWait` before the first tick returns `false` without consuming anything;
and along every trace of committed ticks / waits / try-waits the buffer
never holds more than one token — a tick finding the buffer full is dropped,
never queued. -/
theorem rateLimiter_single_token (rate : Int) (r0 : RateLimiter)
    (hnew : NewRateLimiter rate = .ret r0) :
    r0.tokens = 0 ∧
    r0.TryWait = (false, r0) ∧
    ∀ (ops : List RLOp), ∀ r ∈ rlStates r0 ops, r.tokens ≤ 1 := by
  have h0 : r0.tokens = 0 := by
    rw [NewRateLimiter] at hnew
    by_cases hz : rate = 0
    · rw [if_pos hz] at hnew
      exact Exec.noConfusion hnew
    · rw [if_neg hz] at hnew
      injection hnew with hnew
      rw [← hnew]
  refine ⟨h0, ?_, ?_⟩
  · rw [RateLimiter.TryWait, if_neg]
    omega
  · intro ops r hr
    exact rl_scanl_bound r0 ops (by omega) r hr

/-- Witness for C8 at rate 10 (interval 100ms): the fresh limiter holds no
token, `TryWait` fails on it, and after a tick the buffer still holds at
most one token. -/
theorem rateLimiter_single_token_witness :
    (RateLimiter.mk 100000000 0).tokens = 0 ∧
    (RateLimiter.mk 100000000 0).TryWait = (false, RateLimiter.mk 100000000 0) ∧
    ((RateLimiter.mk 100000000 0).step RLOp.tick).tokens ≤ 1 := by
  have h := rateLimiter_single_token 10 (RateLimiter.mk 100000000 0) (by decide)
  exact ⟨h.1, h.2.1, h.2.2 [RLOp.tick] _ (by decide)⟩

/-- The error "线程池已停止" returned by `ThreadPool.Submit` on a stopped
pool (the `PoolClosed` error of the spec). -/
def poolClosedErr : GoErr := "线程池已停止"

/-- State of a `ThreadPool` as observed by `Submit` and `Stop`.  `workers`
and `queueSize` are the construction parameters; `stopped` is the
mutex-guarded flag; `ctxCancelled` records that `cancelFunc()` ran;
`queueClosed` records that `close(p.tasks)` ran; `taskCount` is the pending
counter; `queue` is the buffered channel's content (worker dequeues are not
needed by the claims about `Submit`/`Stop`). -/
structure ThreadPool (V : Type) where
  workers : Int
  queueSize : Int
  stopped : Bool
  ctxCancelled : Bool
  queueClosed : Bool
  taskCount : Int
  queue : List (Task V)
deriving DecidableEq

/-- `NewThreadPool(workers, queueSize)`: fresh pool, running workers, empty
queue, nothing stopped or closed, zero pending count. -/
def NewThreadPool (V : Type) (workers : Int) (queueSize : Int) : ThreadPool V :=
  { workers := workers, queueSize := queueSize, stopped := false, ctxCancelled := false,
    queueClosed := false, taskCount := 0, queue := [] }

/-- `ThreadPool.Stop`: under the mutex — idempotent; on the first call sets
`stopped`, cancels the context and closes the task channel (then waits for
the workers, which affects no field modelled here). -/
def ThreadPool.Stop {V : Type} (p : ThreadPool V) : ThreadPool V :=
  if p.stopped then p
  else { p with stopped := true, ctxCancelled := true, queueClosed := true }

/-- Which case of the `select` in `Submit` commits: the send on `p.tasks`,
or the `<-p.ctx.Done()` receive. -/
inductive SubmitCase where
  | send
  | ctxDone
deriving DecidableEq, Repr

/-- Outcome of a `Submit` call: a returned error (possibly nil) with the
resulting pool state, or a propagating runtime panic together with the state
it leaves behind. -/
inductive SubmitOutcome (V : Type) where
  | ret : ThreadPool V → Option GoErr → SubmitOutcome V
  | panicked : String → ThreadPool V → SubmitOutcome V
deriving DecidableEq

/-- `ThreadPool.Submit`: read `p.stopped` under the mutex
(`stoppedObserved`); if it was true, fail with `poolClosedErr` touching
nothing.  Otherwise increment `taskCount` and enter the `select`.  `p` is
the pool state at the select's commit: a concurrent `Stop` may have run
between the unlock and the commit (the race window), which is the one way
`stoppedObserved = false` while `p.stopped = true`.  `c` is the schedule
oracle for which ready case the runtime picked: `.ctxDone` (only ready once
`p.ctxCancelled`) decrements the counter back and returns `poolClosedErr`;
`.send` enqueues and returns nil — unless `close(p.tasks)` already ran, in
which case, per Go semantics, the send is ready but proceeds by raising a
runtime panic, leaving the incremented counter behind. -/
def ThreadPool.Submit {V : Type} (stoppedObserved : Bool) (p : ThreadPool V) (t : Task V)
    (c : SubmitCase) : SubmitOutcome V :=
  if stoppedObserved then .ret p (some poolClosedErr)
  else
    let p1 := { p with taskCount := p.taskCount + 1 }
    match c with
    | .send =>
        if p.queueClosed then .panicked "send on closed channel" p1
        else .ret { p1 with queue := p1.queue ++ [t] } none
    | .ctxDone => .ret { p1 with taskCount := p1.taskCount - 1 } (some poolClosedErr)

/-- One `task()` call inside `ThreadPool.worker` followed by
`p.taskCount.Decrement()`.  The call is not wrapped in any `recover()`: a
panicking task propagates out of the worker loop, and in Go an unrecovered
panic in a goroutine terminates the whole process. -/
def workerRunTask {V : Type} (taskCount : Int) (t : Task V) : Exec Int :=
  match t with
  | .ret _ => .ret (taskCount - 1)
  | .panicked r => .panicked r

/-- The `ThreadPool.worker` loop draining a list of already-queued tasks
(until the closed channel is exhausted), threading the pending counter: each
received task runs via `workerRunTask`; a propagating panic aborts the loop
and the remaining tasks are never served. -/
def workerServe {V : Type} (taskCount : Int) : List (Task V) → Exec Int
  | [] => .ret taskCount
  | t :: ts =>
      match workerRunTask taskCount t with
      | .ret c => workerServe c ts
      | .panicked r => .panicked r

/-- The scan `for _, result := range results { if result.Error != nil
{ return result.Error } }; return nil` at the end of `BatchProcess`. -/
def firstResultError {V : Type} : List (TaskResult V) → Option GoErr
  | [] => none
  | r :: rs =>
      match r.error with
      | some e => some e
      | none => firstResultError rs

/-- The chunking loop of `BatchProcess`:
`for i := 0; i < len(items); i += batchSize` appending
`items[i:min(i+batchSize, len(items))]`.  The loop advances by
`batchSize ≥ 1` per iteration, so `items.length` units of fuel always cover
it; `batchCount` in the source only pre-sizes the slice and has no semantic
effect. -/
def batchSplit {T : Type} (batchSize : Nat) : Nat → List T → List (List T)
  | _, [] => []
  | 0, _ :: _ => []
  | fuel + 1, x :: xs => ((x :: xs).take batchSize) :: batchSplit batchSize fuel ((x :: xs).drop batchSize)

/-- The list of chunks `BatchProcess` builds from `items`. -/
def makeBatches {T : Type} (items : List T) (batchSize : Nat) : List (List T) :=
  batchSplit batchSize items.length items

/-- `BatchProcess(items, batchSize, maxGoroutines, processBatch)` from
concurrency.go: split into chunks, wrap each chunk as the task
`func() (interface{}, error) { return nil, processBatch(chunk) }`, run all
of them through `RunTasksConcurrently` — whose `Parallelizer` has timeout 0,
so no admission check can ever observe a done context and the schedule
oracle is constantly false — and return the first non-nil result error in
index order. -/
def BatchProcess {T : Type} (items : List T) (batchSize : Nat) (maxGoroutines : Int)
    (processBatch : List T → Option GoErr) : Option GoErr :=
  let batches := makeBatches items batchSize
  let tasks : List (Task Unit) := batches.map (fun b => Exec.ret (none, processBatch b))
  firstResultError (RunTasksConcurrently maxGoroutines (fun _ => false) tasks)

theorem length_runFrom {V : Type} (doneAt : Nat → Bool) (s : Nat) (ts : List (Task V)) :
    (runFrom doneAt s ts).length = ts.length := by
  induction ts generalizing s with
  | nil => rfl
  | cons t ts ih => simp [runFrom, ih]

theorem get?_runFrom {V : Type} (doneAt : Nat → Bool) (s : Nat) (ts : List (Task V))
    (i : Nat) :
    (runFrom doneAt s ts).get? i = (ts.get? i).map (fun t => runUnit (doneAt (s + i)) t (s + i)) := by
  induction ts generalizing s i with
  | nil => simp [runFrom]
  | cons t ts ih =>
      cases i with
      | zero => simp [runFrom]
      | succ j =>
          have := ih (s + 1) j
          simpa [runFrom, Nat.add_comm, Nat.add_assoc, Nat.add_left_comm] using this

theorem runUnit_index {V : Type} (done : Bool) (t : Task V) (i : Nat) :
    (runUnit done t i).index = i := by
  cases done with
  | true => rfl
  | false =>
      cases t with
      | ret a => obtain ⟨v, e⟩ := a; rfl
      | panicked r => rfl

theorem get?_RunWithContext {V : Type} (p : Parallelizer) (doneAt : Nat → Bool)
    (tasks : List (Task V)) (i : Nat) :
    (p.RunWithContext doneAt tasks).get? i =
      (tasks.get? i).map (fun t => runUnit (doneAt i) t i) := by
  simpa using get?_runFrom doneAt 0 tasks i

theorem length_RunWithContext {V : Type} (p : Parallelizer) (doneAt : Nat → Bool)
    (tasks : List (Task V)) :
    (p.RunWithContext doneAt tasks).length = tasks.length :=
  length_runFrom doneAt 0 tasks

/-- C1: for every task sequence of length N and every schedule, `Run` and
`RunWithContext` return exactly N `TaskResult`s, and the result stored at
position i carries `Index = i` — results are indexed to submission order
regardless of completion order.  The hypothesis `0 < p.MaxGoroutines` is the
config validity condition of the spec's data model (§3): with a
non-positive gate capacity the Go loop would block forever on the admission
send and never return at all. -/
theorem run_returns_indexed_results {V : Type} (p : Parallelizer) (doneAt : Nat → Bool)
    (tasks : List (Task V)) (hmax : 0 < p.MaxGoroutines) :
    (p.Run doneAt tasks).length = tasks.length ∧
    (p.RunWithContext doneAt tasks).length = tasks.length ∧
    (∀ i r, (p.Run doneAt tasks).get? i = some r → r.index = i) ∧
    (∀ i r, (p.RunWithContext doneAt tasks).get? i = some r → r.index = i) := by
  refine ⟨length_RunWithContext p _ tasks, length_RunWithContext p doneAt tasks, ?_, ?_⟩
  · intro i r hr
    rw [Parallelizer.Run, get?_RunWithContext] at hr
    cases ht : tasks.get? i with
    | none => rw [ht] at hr; exact Option.noConfusion hr
    | some t =>
        rw [ht] at hr
        injection hr with hr
        exact hr ▸ runUnit_index _ t i
  · intro i r hr
    rw [get?_RunWithContext] at hr
    cases ht : tasks.get? i with
    | none => rw [ht] at hr; exact Option.noConfusion hr
    | some t =>
        rw [ht] at hr
        injection hr with hr
        exact hr ▸ runUnit_index _ t i

/-- Witness for C1 at a concrete input: two tasks, `MaxGoroutines = 2`, no
timeout; the result at position 1 has index 1 and the batch has length 2. -/
theorem run_returns_indexed_results_witness :
    ((NewParallelizer 2 0).Run (V := Int) (fun _ => false)
        [Exec.ret (some 1, none), Exec.ret (none, some "boom")]).length = 2 ∧
    ∀ r, ((NewParallelizer 2 0).Run (V := Int) (fun _ => false)
        [Exec.ret (some 1, none), Exec.ret (none, some "boom")]).get? 1 = some r →
      r.index = 1 := by
  have h := run_returns_indexed_results (V := Int) (NewParallelizer 2 0) (fun _ => false)
    [Exec.ret (some 1, none), Exec.ret (none, some "boom")] (by decide)
  exact ⟨h.1, fun r hr => h.2.2.1 1 r hr⟩

/-- C2: if the task at position i panics and its admission check did not
observe a done context (so the task body actually ran), the result at
position i has the panic converted into a non-nil error and a nil value; the
panic reaches neither the caller nor sibling tasks — every submitted task's
slot is still populated with that task's own outcome.  `0 < p.MaxGoroutines`
is the spec's config validity condition (§3). -/
theorem run_isolates_task_panics {V : Type} (p : Parallelizer) (doneAt : Nat → Bool)
    (tasks : List (Task V)) (hmax : 0 < p.MaxGoroutines) (i : Nat) (r : String)
    (ht : tasks.get? i = some (Exec.panicked r))
    (hadm : p.doneOracle doneAt i = false) :
    (p.Run doneAt tasks).get? i =
      some { value := none, error := some (taskPanicMsg r), index := i } ∧
    (p.Run doneAt tasks).length = tasks.length ∧
    (∀ j t, tasks.get? j = some t →
      (p.Run doneAt tasks).get? j = some (runUnit (p.doneOracle doneAt j) t j)) := by
  refine ⟨?_, length_RunWithContext p _ tasks, ?_⟩
  · rw [Parallelizer.Run, get?_RunWithContext, ht]
    simp [runUnit, hadm]
  · intro j t htj
    rw [Parallelizer.Run, get?_RunWithContext, htj]
    rfl

/-- Witness for C2 at a concrete input: the second of two tasks panics with
"boom"; its result is the converted error, and the sibling's slot is its own
outcome. -/
theorem run_isolates_task_panics_witness :
    ((NewParallelizer 2 0).Run (V := Int) (fun _ => false)
        [Exec.ret (some 1, none), Exec.panicked "boom"]).get? 1 =
      some { value := none, error := some (taskPanicMsg "boom"), index := 1 } ∧
    ((NewParallelizer 2 0).Run (V := Int) (fun _ => false)
        [Exec.ret (some 1, none), Exec.panicked "boom"]).length = 2 := by
  have h := run_isolates_task_panics (V := Int) (NewParallelizer 2 0) (fun _ => false)
    [Exec.ret (some 1, none), Exec.panicked "boom"] (by decide) 1 "boom" rfl rfl
  exact ⟨h.1, h.2.1⟩

/-- C9: `RunTasksWithTimeout(timeout, tasks...)` returns exactly the results
of a `Parallelizer` with `MaxGoroutines = len(tasks)` and that timeout, and
`RunTasksConcurrently(maxGoroutines, tasks...)` returns exactly the results
of a `Parallelizer` with that `maxGoroutines` and no deadline (timeout 0),
on the same tasks under the same schedule — the source implements both
wrappers by exactly this delegation. -/
theorem convenience_wrappers_equiv {V : Type} :
    (∀ (timeout : Int) (doneAt : Nat → Bool) (tasks : List (Task V)),
        RunTasksWithTimeout timeout doneAt tasks =
          (NewParallelizer tasks.length timeout).Run doneAt tasks) ∧
    (∀ (maxGoroutines : Int) (doneAt : Nat → Bool) (tasks : List (Task V)),
        RunTasksConcurrently maxGoroutines doneAt tasks =
          (NewParallelizer maxGoroutines 0).Run doneAt tasks) :=
  ⟨fun _ _ _ => rfl, fun _ _ _ => rfl⟩

/-- C10: `Get` on an absent key returns nil; `GetWithDefault` returns the
stored value whenever the key is present — even a stored nil — and falls
back to the default only on an absent key; consequently `Get` cannot tell an
absent key from a key whose stored value is nil (both give nil, the same as
on the empty map). -/
theorem safeMap_nil_value_vs_absent {V : Type} (m : SafeMap V) (key : String) (d : Option V) :
    (m.Has key = false → m.Get key = none ∧ m.GetWithDefault key d = d) ∧
    (∀ v, m.data.lookup key = some v → m.Get key = v ∧ m.GetWithDefault key d = v) ∧
    (m.data.lookup key = some none → m.Get key = (NewSafeMap V).Get key) := by
  refine ⟨?_, ?_, ?_⟩
  · intro h
    have hl : m.data.lookup key = none := by
      cases hl : m.data.lookup key with
      | none => rfl
      | some v => rw [SafeMap.Has, hl] at h; exact absurd h (by simp)
    constructor
    · rw [SafeMap.Get, hl]
    · rw [SafeMap.GetWithDefault, hl]
  · intro v hv
    constructor
    · rw [SafeMap.Get, hv]
    · rw [SafeMap.GetWithDefault, hv]
  · intro hv
    rw [SafeMap.Get, hv]
    rfl

/-- Witness for C10 at a concrete map `{"a" ↦ nil}`: lookup of the absent
key "c" gives nil, `GetWithDefault` on "a" returns the stored nil rather
than the default, and `Get "a"` is indistinguishable from `Get` on the
empty map. -/
theorem safeMap_nil_value_vs_absent_witness :
    (SafeMap.mk (V := Int) [("a", none)]).Get "c" = none ∧
    (SafeMap.mk (V := Int) [("a", none)]).GetWithDefault "a" (some 7) = none ∧
    (SafeMap.mk (V := Int) [("a", none)]).Get "a" = (NewSafeMap Int).Get "a" := by
  refine ⟨((safeMap_nil_value_vs_absent ⟨[("a", none)]⟩ "c" (some 7)).1 (by decide)).1,
    ((safeMap_nil_value_vs_absent ⟨[("a", none)]⟩ "a" (some 7)).2.1 none (by decide)).2,
    (safeMap_nil_value_vs_absent ⟨[("a", none)]⟩ "a" (some 7)).2.2 (by decide)⟩

/-- C3 counterexample: the worker loop of `ThreadPool` installs no
`recover()`, so on the concrete queue `[panic "boom", good task]` the panic
propagates out of the worker (in Go, an unrecovered panic in a goroutine
terminates the process) and the subsequently queued task is never served —
refuting the claim that a panicking task cannot crash the worker or the
pool. -/
theorem worker_panic_escapes :
    workerServe (V := Int) 2 [Exec.panicked "boom", Exec.ret (none, none)] =
      Exec.panicked "boom" := by
  decide

/-- C3 as amended: a task that merely returns an error (the worker discards
both return values) never crashes the worker; the loop serves every queued
task and decrements the pending counter once per task.  A panicking task,
however, is not recovered (see the C3 counterexample). -/
theorem worker_survives_task_errors {V : Type} (taskCount : Int) (tasks : List (Task V))
    (h : ∀ t ∈ tasks, ∃ a, t = Exec.ret a) :
    workerServe taskCount tasks = Exec.ret (taskCount - tasks.length) := by
  induction tasks generalizing taskCount with
  | nil =>
      rw [workerServe]
      simp
  | cons t ts ih =>
      obtain ⟨a, ha⟩ := h t (List.mem_cons_self t ts)
      subst ha
      rw [workerServe, workerRunTask]
      show workerServe (taskCount - 1) ts = _
      rw [ih (taskCount - 1) (fun u hu => h u (List.mem_cons_of_mem _ hu))]
      congr 1
      simp only [List.length_cons]
      push_cast
      ring

/-- Witness for the amended C3 at a concrete input: a task returning an
error followed by a succeeding task — both are served and the counter drops
from 2 to 0. -/
theorem worker_survives_task_errors_witness :
    workerServe (V := Int) 2 [Exec.ret (none, some "task failed"), Exec.ret (some 1, none)] =
      Exec.ret 0 := by
  have h := worker_survives_task_errors (V := Int) 2
    [Exec.ret (none, some "task failed"), Exec.ret (some 1, none)]
    (by intro t ht; fin_cases ht <;> exact ⟨_, rfl⟩)
  simpa using h

/-- C4: evaluation of `Submit` at the failing schedule.  Start from
`NewThreadPool(1, 0)`, let a `Submit` pass its stopped-check
(`stoppedObserved = false`) and block in the enqueue `select`; a concurrent
`Stop()` completes (setting the flag, cancelling the context, closing the
channel).  First conjunct — the bug: if the runtime then commits the send
case (ready, since the channel is closed), `Submit` panics with "send on
closed channel" and leaves the pending counter at 1, instead of returning
`PoolClosed` with the counter restored.  Second conjunct — the intended
path the claim describes does exist: committing the `ctx.Done()` case
returns `PoolClosed` with the counter back at 0.  Third conjunct — a
`Submit` arriving after `Stop()` completed observes `stopped = true` and
always fails with `PoolClosed`, enqueueing nothing. -/
theorem submit_race_send_on_closed_channel :
    ThreadPool.Submit false ((NewThreadPool Int 1 0).Stop) (Exec.ret (none, none))
        SubmitCase.send =
      SubmitOutcome.panicked "send on closed channel"
        { (NewThreadPool Int 1 0).Stop with taskCount := 1 } ∧
    ThreadPool.Submit false ((NewThreadPool Int 1 0).Stop) (Exec.ret (none, none))
        SubmitCase.ctxDone =
      SubmitOutcome.ret ((NewThreadPool Int 1 0).Stop) (some poolClosedErr) ∧
    ThreadPool.Submit true ((NewThreadPool Int 1 0).Stop) (Exec.ret (none, none))
        SubmitCase.send =
      SubmitOutcome.ret ((NewThreadPool Int 1 0).Stop) (some poolClosedErr) := by
  refine ⟨by decide, by decide, by decide⟩

theorem batchSplit_join {T : Type} (bs : Nat) (hbs : 0 < bs) :
    ∀ (fuel : Nat) (l : List T), l.length ≤ fuel → (batchSplit bs fuel l).flatten = l := by
  intro fuel
  induction fuel with
  | zero =>
      intro l hl
      cases l with
      | nil => rfl
      | cons x xs => simp at hl
  | succ n ih =>
      intro l hl
      cases l with
      | nil => rfl
      | cons x xs =>
          rw [batchSplit, List.flatten_cons, ih]
          · exact List.take_append_drop bs (x :: xs)
          · rw [List.length_drop]
            simp only [List.length_cons] at hl ⊢
            omega

theorem batchSplit_chunk_le {T : Type} (bs : Nat) :
    ∀ (fuel : Nat) (l : List T), ∀ b ∈ batchSplit bs fuel l, b.length ≤ bs := by
  intro fuel
  induction fuel with
  | zero =>
      intro l b hb
      cases l with
      | nil => simp [batchSplit] at hb
      | cons x xs => simp [batchSplit] at hb
  | succ n ih =>
      intro l b hb
      cases l with
      | nil => simp [batchSplit] at hb
      | cons x xs =>
          rw [batchSplit] at hb
          rcases List.mem_cons.mp hb with h | h
          · subst h
            rw [List.length_take]
            exact Nat.min_le_left bs _
          · exact ih _ b h

theorem batchSplit_chunk_full {T : Type} (bs : Nat) (hbs : 0 < bs) :
    ∀ (fuel : Nat) (l : List T), l.length ≤ fuel → ∀ i b,
      (batchSplit bs fuel l).get? i = some b →
      i + 1 < (batchSplit bs fuel l).length → b.length = bs := by
  intro fuel
  induction fuel with
  | zero =>
      intro l hl i b hb hlt
      cases l with
      | nil => simp [batchSplit] at hb
      | cons x xs => simp at hl
  | succ n ih =>
      intro l hl i b hb hlt
      cases l with
      | nil => simp [batchSplit] at hb
      | cons x xs =>
          rw [batchSplit] at hb hlt
          cases i with
          | zero =>
              rw [List.get?_cons_zero] at hb
              injection hb with hb
              subst hb
              rw [List.length_cons] at hlt
              have hrest : batchSplit bs n ((x :: xs).drop bs) ≠ [] := by
                intro hemp
                rw [hemp] at hlt
                simp at hlt
              have hdrop : (x :: xs).drop bs ≠ [] := by
                intro hemp
                cases n with
                | zero =>
                    cases hd : (x :: xs).drop bs with
                    | nil => exact hrest (by rw [hd]; rfl)
                    | cons y ys => exact absurd hd (by rw [hemp]; intro h; exact List.noConfusion h)
                | succ m => exact hrest (by rw [hemp]; rfl)
              have hlen : bs < (x :: xs).length := by
                by_contra hle
                exact hdrop (List.drop_eq_nil_of_le (Nat.le_of_not_lt hle))
              rw [List.length_take]
              omega
          | succ j =>
              rw [List.get?_cons_succ] at hb
              rw [List.length_cons] at hlt
              refine ih ((x :: xs).drop bs) ?_ j b hb ?_
              · rw [List.length_drop]
                simp only [List.length_cons] at hl ⊢
                omega
              · omega

theorem firstError_runFrom_chunks {T : Type} (f : List T → Option GoErr)
    (g : Nat → Bool) (hg : ∀ i, g i = false) :
    ∀ (bs : List (List T)) (s : Nat),
      firstResultError (runFrom g s (bs.map (fun b => (Exec.ret (none, f b) : Task Unit)))) =
        bs.findSome? f := by
  intro bs
  induction bs with
  | nil => intro s; rfl
  | cons b rest ih =>
      intro s
      rw [List.map_cons, runFrom, hg s]
      cases hfb : f b with
      | some e => simp [runUnit, firstResultError, hfb, List.findSome?_cons]
      | none =>
          rw [List.findSome?_cons]
          simp only [hfb]
          rw [← ih (s + 1)]
          rfl

/-- C5: for a non-empty `items` and `batchSize > 0` (and a positive
`maxGoroutines`, the spec's config validity condition — with a non-positive
gate capacity the underlying runner would block forever), `BatchProcess`
splits `items` into consecutive chunks whose concatenation is `items`, each
of at most `batchSize` elements with every non-final chunk exactly
`batchSize` long, runs all chunks through the no-deadline parallel runner,
and returns the first non-nil chunk error in chunk-index order
(`List.findSome?` — `none` exactly when every chunk returned nil). -/
theorem batchProcess_chunks_and_first_error {T : Type} (items : List T) (batchSize : Nat)
    (maxGoroutines : Int) (processBatch : List T → Option GoErr)
    (hne : items ≠ []) (hbs : 0 < batchSize) (hmax : 0 < maxGoroutines) :
    (makeBatches items batchSize).flatten = items ∧
    (∀ b ∈ makeBatches items batchSize, b.length ≤ batchSize) ∧
    (∀ i b, (makeBatches items batchSize).get? i = some b →
        i + 1 < (makeBatches items batchSize).length → b.length = batchSize) ∧
    BatchProcess items batchSize maxGoroutines processBatch =
      (makeBatches items batchSize).findSome? processBatch := by
  refine ⟨batchSplit_join batchSize hbs items.length items (Nat.le_refl _),
    fun b hb => batchSplit_chunk_le batchSize items.length items b hb,
    fun i b hb hlt => batchSplit_chunk_full batchSize hbs items.length items
      (Nat.le_refl _) i b hb hlt, ?_⟩
  have hg : ∀ i, (NewParallelizer maxGoroutines 0).doneOracle (fun _ => false) i = false := by
    intro i
    rw [Parallelizer.doneOracle]
    simp [NewParallelizer]
  exact firstError_runFrom_chunks processBatch _ hg (makeBatches items batchSize) 0

/-- Witness for C5 at the spec's end-to-end scenario C: items 1..10,
`chunkSize = 3`, `maxConcurrency = 2`, and a chunk function failing exactly
on the chunk containing 7 — `BatchProcess` returns that error, and the
chunks concatenate back to the input. -/
theorem batchProcess_chunks_and_first_error_witness :
    BatchProcess (T := Int) [1, 2, 3, 4, 5, 6, 7, 8, 9, 10] 3 2
        (fun b => if b.contains 7 then some "chunk with 7 failed" else none) =
      some "chunk with 7 failed" ∧
    (makeBatches (T := Int) [1, 2, 3, 4, 5, 6, 7, 8, 9, 10] 3).flatten =
      [1, 2, 3, 4, 5, 6, 7, 8, 9, 10] := by
  have h := batchProcess_chunks_and_first_error (T := Int) [1, 2, 3, 4, 5, 6, 7, 8, 9, 10] 3 2
    (fun b => if b.contains 7 then some "chunk with 7 failed" else none)
    (by decide) (by decide) (by decide)
  exact ⟨h.2.2.2.trans (by decide), h.1⟩

/-- C7 counterexample: `NewRateLimiter(-5)` does not fail fast — it computes
`interval = time.Second / -5 = -200ms` and returns a constructed limiter
whose interval is non-positive, refuting the claim that construction fails
fast for every rate ≤ 0 and that a limiter is never created with a
non-positive interval.  (The background `time.NewTicker(interval)` then
panics in the generator goroutine, after construction has succeeded.) -/
theorem newRateLimiter_negative_rate_constructs :
    NewRateLimiter (-5) = Exec.ret { interval := -200000000, tokens := 0 } ∧
    ((-200000000 : Int) ≤ 0) := by
  refine ⟨by decide, by decide⟩

/-- C7 as amended: `NewRateLimiter` computes `interval = 1s / rate` with no
validation whatsoever.  For `rate > 0` it returns a limiter with the
truncated-division interval (non-negative, and the only case the spec
blesses); for `rate = 0` the 64-bit integer division itself faults with a
divide-by-zero runtime panic (a crash, not a graceful fail-fast); for
`rate < 0` construction succeeds and yields a limiter whose interval is
non-positive. -/
theorem newRateLimiter_no_validation (rate : Int) :
    (rate = 0 → NewRateLimiter rate = Exec.panicked "runtime error: integer divide by zero") ∧
    (rate < 0 → ∃ r, NewRateLimiter rate = Exec.ret r ∧ r.interval ≤ 0) ∧
    (0 < rate → ∃ r, NewRateLimiter rate = Exec.ret r ∧
        r.interval = Int.tdiv 1000000000 rate ∧ 0 ≤ r.interval) := by
  refine ⟨?_, ?_, ?_⟩
  · intro hz
    rw [NewRateLimiter, if_pos hz]
  · intro hneg
    refine ⟨{ interval := Int.tdiv 1000000000 rate, tokens := 0 }, ?_, ?_⟩
    · rw [NewRateLimiter, if_neg (by omega)]
    · exact Int.tdiv_nonpos (by omega) (Int.le_of_lt hneg)
  · intro hpos
    refine ⟨{ interval := Int.tdiv 1000000000 rate, tokens := 0 }, ?_, rfl, ?_⟩
    · rw [NewRateLimiter, if_neg (by omega)]
    · exact Int.tdiv_nonneg (by omega) (Int.le_of_lt hpos)

/-- Witness for the amended C7 at concrete rates: rate 0 faults with the
division panic, and rate 4 yields interval 250ms ≥ 0. -/
theorem newRateLimiter_no_validation_witness :
    NewRateLimiter 0 = Exec.panicked "runtime error: integer divide by zero" ∧
    ∃ r, NewRateLimiter 4 = Exec.ret r ∧ r.interval = Int.tdiv 1000000000 4 ∧ 0 ≤ r.interval := by
  exact ⟨(newRateLimiter_no_validation 0).1 rfl, (newRateLimiter_no_validation 4).2.2 (by decide)⟩

end Common
